import Mathlib

/-!
Verification of the peer-to-peer file-exchange engine of the
Low-Level-Torrent repository against its natural-language specification.

The Python sources `src/Core/Torrent_Metadata.py` and
`src/Peer/BitTorrent_Protocol.py` are shallowly embedded below.  Byte
strings are `List Nat` (each element an octet value), Python `dict`s keyed
by integers or strings are association lists, Python `set`s are `Finset`,
and Python exceptions are `Option`/failure results.  Calls into external
libraries (`hashlib.sha256`, `hashlib.sha1`, `json.dumps`/`json.loads`,
file and socket I/O) are either parameters of the definitions (the hash
primitives, characterised only by their digest widths where that is all a
theorem needs) or are modelled by total functions (`disk` maps a file path
to its byte content; the JSON text layer between `Save_Torrent` and
`Load_Torrent` is the identity on the structured container it transports,
which is exactly `json.loads ∘ json.dumps` on the values produced here).
-/

/-- A byte string: a list of octet values. -/
abbrev Bytes := List Nat

/-- Python `str.encode('utf-8')`, restricted to the code points themselves
(the descriptor fields exercised here are ASCII, where UTF-8 is the
identity on code points). -/
def str_to_bytes (s : String) : Bytes := s.data.map Char.toNat

/-- Lookup in an association list, modelling Python `d.get(k)` / `d[k]`. -/
def alLookup {κ α : Type} [DecidableEq κ] (k : κ) : List (κ × α) → Option α
  | [] => none
  | (k2, v) :: rest => if k2 = k then some v else alLookup k rest

/-- Update/insert in an association list, modelling Python `d[k] = v`
(replaces an existing binding in place, else appends, as a `dict` does). -/
def alInsert {κ α : Type} [DecidableEq κ] (k : κ) (v : α) : List (κ × α) → List (κ × α)
  | [] => [(k, v)]
  | (k2, v2) :: rest => if k2 = k then (k, v) :: rest else (k2, v2) :: alInsert k v rest

/-- Deletion from an association list, modelling Python `del d[k]`. -/
def alErase {κ α : Type} [DecidableEq κ] (k : κ) : List (κ × α) → List (κ × α)
  | [] => []
  | (k2, v2) :: rest => if k2 = k then rest else (k2, v2) :: alErase k rest

/-- Value of one hexadecimal digit (Python `bytes.fromhex` digit table). -/
def hex_val (c : Char) : Nat :=
  if '0' ≤ c ∧ c ≤ '9' then c.toNat - 48
  else if 'a' ≤ c ∧ c ≤ 'f' then c.toNat - 87
  else if 'A' ≤ c ∧ c ≤ 'F' then c.toNat - 55
  else 0

/-- Helper of `bytes_fromhex`: consume hex digits two at a time. -/
def bytes_fromhex_aux : List Char → Bytes
  | [] => []
  | [_] => []
  | c1 :: c2 :: rest => (16 * hex_val c1 + hex_val c2) :: bytes_fromhex_aux rest

/-- Python `bytes.fromhex`, on well-formed hex strings (the only inputs the
embedded code feeds it: hex digests produced by `hashlib.<h>.hexdigest()`). -/
def bytes_fromhex (s : String) : Bytes := bytes_fromhex_aux s.data

theorem bytes_fromhex_aux_length :
    ∀ l : List Char, (bytes_fromhex_aux l).length = l.length / 2
  | [] => by simp [bytes_fromhex_aux]
  | [c] => by simp [bytes_fromhex_aux]
  | c1 :: c2 :: rest => by
      have ih := bytes_fromhex_aux_length rest
      simp only [bytes_fromhex_aux, List.length_cons, ih]
      omega

/-! ## `src/Core/Torrent_Metadata.py` -/

/-- `File_Info` (Torrent_Metadata.py, lines 142-173): one file of the
payload, a relative path, a byte length and an optional whole-file digest. -/
structure File_Info where
  Path : String
  Length : Nat
  Hash : Option String
deriving DecidableEq

/-- `Torrent_Metadata` (Torrent_Metadata.py, lines 176-274): the in-memory
descriptor.  `Creation_Date` is the Unix timestamp recorded at
construction time; `Info_Hash` is the descriptor identifier. -/
structure Torrent_Metadata where
  Name : String
  Files : List File_Info
  Piece_Size : Nat
  Piece_Hashes : List String
  Tracker_URLs : List String
  Comment : Option String
  Created_By : String
  Private : Bool
  Creation_Date : Nat
  Info_Hash : String
deriving DecidableEq

/-- Total payload size: `Torrent_Metadata.Get_Total_Size`. -/
def Get_Total_Size (m : Torrent_Metadata) : Nat :=
  (m.Files.map File_Info.Length).sum

/-- JSON rendering of a string (descriptor fields are plain ASCII names and
hex digests, which need no escaping). -/
def json_of_string (s : String) : String := "\x22" ++ s ++ "\x22"

/-- JSON rendering of an optional string (`None` prints as `null`). -/
def json_of_opt_string : Option String → String
  | none => "null"
  | some s => json_of_string s

/-- JSON rendering of a list with Python's default `", "` separator. -/
def json_list (items : List String) : String :=
  "[" ++ String.intercalate ", " items ++ "]"

/-- JSON rendering of `File_Info.To_Dict` under `sort_keys=True`
(keys `Hash` < `Length` < `Path`). -/
def file_info_json (f : File_Info) : String :=
  "\x7b\x22Hash\x22: " ++ json_of_opt_string f.Hash ++
    ", \x22Length\x22: " ++ toString f.Length ++
    ", \x22Path\x22: " ++ json_of_string f.Path ++ "\x7d"

/-- The canonical serialisation hashed by `_Calculate_Info_Hash`
(Torrent_Metadata.py, lines 221-231): `json.dumps(Info_Dict,
sort_keys=True)` of the subset `{Name, Piece_Size, Piece_Hashes, Files}`,
whose keys sort as `Files` < `Name` < `Piece_Hashes` < `Piece_Size`. -/
def info_subset_json (name : String) (pieceSize : Nat) (pieceHashes : List String)
    (files : List File_Info) : String :=
  "\x7b\x22Files\x22: " ++ json_list (files.map file_info_json) ++
    ", \x22Name\x22: " ++ json_of_string name ++
    ", \x22Piece_Hashes\x22: " ++ json_list (pieceHashes.map json_of_string) ++
    ", \x22Piece_Size\x22: " ++ toString pieceSize ++ "\x7d"

/-- `Torrent_Metadata._Calculate_Info_Hash`: the hex digest, under the
`Hash_Functions.SHA256` primitive `H256`, of the canonical serialisation. -/
def calc_info_hash (H256 : Bytes → String) (name : String) (pieceSize : Nat)
    (pieceHashes : List String) (files : List File_Info) : String :=
  H256 (str_to_bytes (info_subset_json name pieceSize pieceHashes files))

/-- Python truthiness coercion `Created_By or "DST Torrent System v1.0"`
in `Torrent_Metadata.__init__` (`None` and `""` are falsy). -/
def created_by_or_default : Option String → String
  | none => "DST Torrent System v1.0"
  | some s => if s = "" then "DST Torrent System v1.0" else s

/-- `Torrent_Metadata.__init__` (lines 182-219): stores the fields, applies
the `or`-coercions to `Tracker_URLs` and `Created_By`, stamps `now`
(`datetime.utcnow().timestamp()`), and computes the info hash. -/
def mk_metadata (H256 : Bytes → String) (now : Nat) (name : String)
    (files : List File_Info) (pieceSize : Nat) (pieceHashes : List String)
    (trackerURLs : List String) (comment : Option String)
    (createdBy : Option String) (priv : Bool) : Torrent_Metadata :=
  { Name := name
    Files := files
    Piece_Size := pieceSize
    Piece_Hashes := pieceHashes
    Tracker_URLs := if trackerURLs.isEmpty then [] else trackerURLs
    Comment := comment
    Created_By := created_by_or_default createdBy
    Private := priv
    Creation_Date := now
    Info_Hash := calc_info_hash H256 name pieceSize pieceHashes files }

/-- The dictionary form of one file entry (`File_Info.To_Dict` /
`File_Info.From_Dict`). -/
structure FileDict where
  Path : String
  Length : Nat
  Hash : Option String
deriving DecidableEq

/-- `File_Info.To_Dict`. -/
def file_to_dict (f : File_Info) : FileDict :=
  { Path := f.Path, Length := f.Length, Hash := f.Hash }

/-- `File_Info.From_Dict`. -/
def file_from_dict (d : FileDict) : File_Info :=
  { Path := d.Path, Length := d.Length, Hash := d.Hash }

/-- The dictionary form of a descriptor as produced by
`Torrent_Metadata.To_Dict` and consumed by `From_Dict`.  Fields read with
`Data.get(...)` in `From_Dict` are `Option`-valued here. -/
structure MetaDict where
  Name : String
  Files : List FileDict
  Piece_Size : Nat
  Piece_Hashes : List String
  Tracker_URLs : List String
  Comment : Option String
  Created_By : Option String
  Private : Bool
  Creation_Date : Option Nat
  Info_Hash : String
  DST_Version : String
deriving DecidableEq

/-- `Torrent_Metadata.To_Dict` (lines 233-247). -/
def to_dict (m : Torrent_Metadata) : MetaDict :=
  { Name := m.Name
    Files := m.Files.map file_to_dict
    Piece_Size := m.Piece_Size
    Piece_Hashes := m.Piece_Hashes
    Tracker_URLs := m.Tracker_URLs
    Comment := m.Comment
    Created_By := some m.Created_By
    Private := m.Private
    Creation_Date := some m.Creation_Date
    Info_Hash := m.Info_Hash
    DST_Version := "1.0" }

/-- `Torrent_Metadata.From_Dict` (lines 249-266): rebuild through
`__init__` — which recomputes the info hash and re-applies the
truthiness coercions — then overwrite `Creation_Date` from the dict
when present. -/
def from_dict (H256 : Bytes → String) (now : Nat) (d : MetaDict) : Torrent_Metadata :=
  let m := mk_metadata H256 now d.Name (d.Files.map file_from_dict) d.Piece_Size
    d.Piece_Hashes d.Tracker_URLs d.Comment d.Created_By d.Private
  { m with Creation_Date := d.Creation_Date.getD m.Creation_Date }

/-- The `Container` value written by `DST_File_Handler.Save_Torrent`.
With no RSA handler configured (the default `DST_File_Handler()`),
`Hybrid_Crypto` is `None`, so the body is stored in plaintext and the
signature is `None`; `Data` stands for the JSON text of the body, which
round-trips to the structured value. -/
structure DST_Container where
  Encrypted : Bool
  Data : MetaDict
  Signature : Option String
deriving DecidableEq

/-- The top-level `.dst` JSON object written by `Save_Torrent`. -/
structure DST_File where
  DST_Magic : String
  Container : DST_Container
deriving DecidableEq

/-- `DST_File_Handler.Save_Torrent` (lines 388-448) for a handler without
RSA keys: signature `None`, plaintext container, fixed magic. -/
def Save_Torrent (m : Torrent_Metadata) : DST_File :=
  { DST_Magic := "DST_TORRENT_V1"
    Container := { Encrypted := false, Data := to_dict m, Signature := none } }

/-- `DST_File_Handler.Load_Torrent` (lines 450-513) for a handler without
RSA keys: reject a wrong magic (`ValueError`), reject an encrypted
container (`ValueError`, no decryption handler), otherwise parse the body
with `From_Dict`.  A Python exception is `none`. -/
def Load_Torrent (H256 : Bytes → String) (now : Nat) (f : DST_File) :
    Option Torrent_Metadata :=
  if f.DST_Magic ≠ "DST_TORRENT_V1" then none
  else if f.Container.Encrypted then none
  else some (from_dict H256 now f.Container.Data)

/-- `Piece_Manager.Calculate_Pieces` (Torrent_Metadata.py, lines 36-67):
hash the file's bytes in `pieceSize`-byte chunks with
`Hash_Functions.SHA256` (= `H256` here), the trailing chunk possibly
shorter.  The read loop consumes one chunk per iteration and stops on an
empty read, so it produces exactly `⌈|data| / pieceSize⌉` digests, the
`k`-th over bytes `[k·pieceSize, (k+1)·pieceSize)`; with `pieceSize = 0`
the first read returns `b''` and the loop ends with no digest. -/
def calculate_pieces (H256 : Bytes → String) (pieceSize : Nat) (data : Bytes) :
    List String :=
  if pieceSize = 0 then []
  else (List.range ((data.length + pieceSize - 1) / pieceSize)).map
    (fun k => H256 ((data.drop (k * pieceSize)).take pieceSize))

theorem mem_calculate_pieces {H256 : Bytes → String} {pieceSize : Nat}
    {data : Bytes} {s : String} (hs : s ∈ calculate_pieces H256 pieceSize data) :
    ∃ b, s = H256 b := by
  unfold calculate_pieces at hs
  split at hs
  · simp at hs
  · obtain ⟨k, _, hk⟩ := List.mem_map.mp hs
    exact ⟨_, hk.symm⟩

/-! ## `src/Peer/BitTorrent_Protocol.py` -/

/-- `Peer_State` (BitTorrent_Protocol.py, lines 19-36): per-peer wire
state.  `downloaded_pieces` is the peer's advertised piece set (from
BITFIELD/HAVE); `requested_pieces` is initialised empty by
`__post_init__` and, like in the source, never written afterwards. -/
structure Peer_State where
  peer_id : String
  ip : String
  port : Nat
  connected : Bool
  choked : Bool
  interested : Bool
  peer_choked : Bool
  peer_interested : Bool
  downloaded_pieces : Finset Nat
  requested_pieces : Finset Nat
deriving DecidableEq

/-- The mutable fields of `BitTorrent_Protocol` (lines 59-92).
`piece_buffers` maps a piece index to its in-flight block map
(offset ↦ block bytes); `peers` is the per-peer state table (entries are
*not* removed when a connection dies — `handle_peer_messages` only flips
`connected`); `active_peers` records the peer ids with a live
`Peer_Connection`, used by the HAVE broadcast.  Disk writes
(`_write_piece_to_files`) and network sends are outside the engine state:
sends are returned as an `Out_Msg` list. -/
structure EngineState where
  have_pieces : Finset Nat
  requested_pieces : Finset Nat
  piece_buffers : List (Nat × List (Nat × Bytes))
  downloaded_bytes : Nat
  uploaded_bytes : Nat
  peers : List (String × Peer_State)
  active_peers : List String
deriving DecidableEq

/-- A message the engine sends on a session while processing input. -/
inductive Out_Msg
  | interested : Out_Msg
  | request (index offset length : Nat) : Out_Msg
  | piece (index offset : Nat) (data : Bytes) : Out_Msg
  | have_piece (index : Nat) : Out_Msg
deriving DecidableEq

/-- `BLOCK_SIZE = 16384` (line 45). -/
def BLOCK_SIZE : Nat := 16384

/-- Big-endian integer of a byte string (`struct.unpack('>I', ...)`;
octets are 8-bit, hence the `% 256`). -/
def be_nat (l : Bytes) : Nat := l.foldl (fun a b => 256 * a + b % 256) 0

/-- `parse_have_message` (lines 166-170). -/
def parse_have_message (payload : Bytes) : Option Nat :=
  if payload.length = 4 then some (be_nat payload) else none

/-- `parse_bitfield_message` (lines 172-181): scan every bit of the
payload most-significant-first per byte; record `byte_index*8 + bit_index`
only when the bit is set *and* the index is below the torrent's piece
count — out-of-range set bits fall through silently. -/
def parse_bitfield_message (total_pieces : Nat) (payload : Bytes) : Finset Nat :=
  ((List.range (payload.length * 8)).filter
    (fun idx => (payload.getD (idx / 8) 0 % 256).testBit (7 - idx % 8)
      && decide (idx < total_pieces))).toFinset

/-- `parse_request_message` (lines 183-187). -/
def parse_request_message (payload : Bytes) : Option (Nat × Nat × Nat) :=
  if payload.length = 12 then
    some (be_nat (payload.take 4), be_nat ((payload.drop 4).take 4), be_nat (payload.drop 8))
  else none

/-- `parse_piece_message` (lines 189-195). -/
def parse_piece_message (payload : Bytes) : Option (Nat × Nat × Bytes) :=
  if 8 ≤ payload.length then
    some (be_nat (payload.take 4), be_nat ((payload.drop 4).take 4), payload.drop 8)
  else none

/-- The actual byte length of piece `i`:
`min(self.piece_size, self.metadata.Get_Total_Size() - i * self.piece_size)`
as computed (with Python's signed integers, hence `Int`) at lines 365-366,
503-504 and 648-650. -/
def piece_actual_size (m : Torrent_Metadata) (i : Nat) : Int :=
  min (m.Piece_Size : Int) ((Get_Total_Size m : Int) - (i : Int) * (m.Piece_Size : Int))

/-- Python `range(0, stop, step)` for a possibly negative `stop` and
positive `step`, as a list of `Nat` offsets. -/
def range_step (stop : Int) (step : Nat) : List Nat :=
  (List.range ((stop.toNat + step - 1) / step)).map (fun k => k * step)

/-- `(piece_size + BLOCK_SIZE - 1) // BLOCK_SIZE` with Python's floor
division (lines 368, 507). -/
def num_blocks (m : Torrent_Metadata) (i : Nat) : Int :=
  Int.fdiv (piece_actual_size m i + BLOCK_SIZE - 1) BLOCK_SIZE

/-- `_is_piece_complete` (lines 494-518): the buffered offsets must equal
the expected covering `{0, B, 2B, …}` truncated at the piece's actual
size, the buffered byte total must equal that size, and the block count
must equal `⌈piece_size / B⌉`. -/
def is_piece_complete (m : Torrent_Metadata) (st : EngineState) (i : Nat) : Bool :=
  match alLookup i st.piece_buffers with
  | none => false
  | some buf =>
    let psize := piece_actual_size m i
    let total_data : Nat := (buf.map (fun kv => kv.2.length)).sum
    decide ((range_step psize BLOCK_SIZE).toFinset = (buf.map Prod.fst).toFinset)
      && decide ((total_data : Int) = psize)
      && decide ((buf.length : Int) = num_blocks m i)

/-- `sorted(piece_buffer.keys())` followed by concatenation (lines
525-531): assemble the in-flight buffer in ascending offset order. -/
def assemble_piece (buf : List (Nat × Bytes)) : Bytes :=
  (List.insertionSort (· ≤ ·) (buf.map Prod.fst)).foldl
    (fun acc off => acc ++ ((alLookup off buf).getD [])) []

/-- `_verify_piece_hash` (lines 520-539): assemble the buffer, hash it
with `hashlib.sha1` (= the parameter `S1`), and compare against the
hex-decoded stored digest `Piece_Hashes[i]`.  A Python `IndexError` on an
out-of-range `i` aborts the session without committing; it is modelled as
comparing against `bytes_fromhex "" = []`, which likewise never commits. -/
def verify_piece_hash (S1 : Bytes → Bytes) (m : Torrent_Metadata)
    (st : EngineState) (i : Nat) : Bool :=
  match alLookup i st.piece_buffers with
  | none => false
  | some buf => S1 (assemble_piece buf) == bytes_fromhex (m.Piece_Hashes.getD i "")

/-- `handle_received_block` (lines 379-419): unconditionally store the
block in the piece buffer and count its bytes; if the piece is now
complete, verify it — on success commit (ownership gains `i`, the request
mark is discarded, the buffer is freed, HAVE goes to every active peer),
on failure drop the buffer and the request mark. -/
def handle_received_block (S1 : Bytes → Bytes) (m : Torrent_Metadata)
    (st : EngineState) (i off : Nat) (data : Bytes) : EngineState × List Out_Msg :=
  let buf0 := (alLookup i st.piece_buffers).getD []
  let st1 := { st with
    piece_buffers := alInsert i (alInsert off data buf0) st.piece_buffers
    downloaded_bytes := st.downloaded_bytes + data.length }
  if is_piece_complete m st1 i then
    if verify_piece_hash S1 m st1 i then
      ({ st1 with
          have_pieces := insert i st1.have_pieces
          requested_pieces := st1.requested_pieces.erase i
          piece_buffers := alErase i st1.piece_buffers },
        st1.active_peers.map (fun _ => Out_Msg.have_piece i))
    else
      ({ st1 with
          piece_buffers := alErase i st1.piece_buffers
          requested_pieces := st1.requested_pieces.erase i }, [])
  else (st1, [])

/-- `_read_block_from_files` loop body (lines 449-492): walk the file list
with a running global offset; at the *first* file overlapping the block's
global range, read the in-file overlap and return it (zero-padded in front
when the block starts before the file), without ever visiting later
files; a missing file makes `open` raise, caught as `None`. -/
def read_block_aux (disk : String → Option Bytes) :
    List File_Info → Int → Int → Int → Option Bytes
  | [], _, _, _ => none
  | fi :: rest, cur, bstart, bend =>
    let fstart := cur
    let fend := cur + (fi.Length : Int)
    if bstart < fend ∧ bend > fstart then
      let frs := max (bstart - fstart) 0
      let fre := min (bend - fstart) (fi.Length : Int)
      if frs < fre then
        match disk fi.Path with
        | none => none
        | some content =>
          let data := (content.drop frs.toNat).take (fre - frs).toNat
          if bstart ≥ fstart then some data
          else some (List.replicate (fstart - bstart).toNat 0 ++ data)
      else read_block_aux disk rest fend bstart bend
    else read_block_aux disk rest fend bstart bend

/-- `_read_block_from_files` (lines 449-492). -/
def read_block_from_files (disk : String → Option Bytes) (m : Torrent_Metadata)
    (i off len : Nat) : Option Bytes :=
  let bstart : Int := ((i * m.Piece_Size + off : Nat) : Int)
  read_block_aux disk m.Files 0 bstart (bstart + (len : Int))

/-- `send_piece_block` (lines 421-447): serve a REQUEST only for a held
piece; send the PIECE frame only when the read block is non-empty and has
exactly the requested length (`if block_data and len(block_data) ==
block_length`), counting the bytes as uploaded. -/
def send_piece_block (disk : String → Option Bytes) (m : Torrent_Metadata)
    (st : EngineState) (i off len : Nat) : EngineState × List Out_Msg :=
  if i ∈ st.have_pieces then
    match read_block_from_files disk m i off len with
    | some data =>
      if !data.isEmpty && data.length == len then
        ({ st with uploaded_bytes := st.uploaded_bytes + len },
          [Out_Msg.piece i off data])
      else (st, [])
    | none => (st, [])
  else (st, [])

/-- `send_interested` (lines 323-330): transmit INTERESTED and set the
flag, unless it is already set. -/
def send_interested (st : EngineState) (pid : String) : EngineState × List Out_Msg :=
  match alLookup pid st.peers with
  | none => (st, [])
  | some ps =>
    if ps.interested then (st, [])
    else ({ st with peers := alInsert pid { ps with interested := true } st.peers },
      [Out_Msg.interested])

/-- The rarity count of lines 347-350: the number of entries of
`self.peers` — connected or not — whose advertised piece set contains `p`
(the guard `p.downloaded_pieces and piece in p.downloaded_pieces` is
equivalent to plain membership, an empty set being falsy). -/
def rarity_all (st : EngineState) (p : Nat) : Nat :=
  (st.peers.filter (fun kv => decide (p ∈ kv.2.downloaded_pieces))).length

/-- The sort key of line 353, `key=lambda p: (piece_rarity[p], p)`, as a
relation: lexicographic on (rarity, piece index). -/
def rarity_le (k : Nat → Nat) (a b : Nat) : Prop :=
  k a < k b ∨ (k a = k b ∧ a ≤ b)

instance (k : Nat → Nat) : DecidableRel (rarity_le k) := fun a b => by
  unfold rarity_le; infer_instance

instance (k : Nat → Nat) : IsTotal Nat (rarity_le k) := by
  constructor; intro a b; unfold rarity_le; omega

instance (k : Nat → Nat) : IsTrans Nat (rarity_le k) := by
  constructor; intro a b c; unfold rarity_le; omega

/-- `available_pieces` of line 339:
`peer_state.downloaded_pieces - self.have_pieces - self.requested_pieces`. -/
def available_pieces (st : EngineState) (ps : Peer_State) : Finset Nat :=
  (ps.downloaded_pieces \ st.have_pieces) \ st.requested_pieces

/-- A duplicate-free listing of a finite set of piece indices (every
element lies below `fold max 0 id + 1`).  Python iterates the set in
unspecified order; the order of this listing is immaterial because the
sort that consumes it uses a total, antisymmetric key (see
`sorted_pieces`). -/
def finset_listing (s : Finset Nat) : List Nat :=
  (List.range (s.fold max 0 id + 1)).filter (fun x => decide (x ∈ s))

theorem mem_finset_listing (s : Finset Nat) (x : Nat) :
    x ∈ finset_listing s ↔ x ∈ s := by
  unfold finset_listing
  rw [List.mem_filter]
  constructor
  · intro h
    simpa using h.2
  · intro h
    refine ⟨List.mem_range.mpr ?_, by simpa using h⟩
    have : x ≤ s.fold max 0 id :=
      (Finset.le_fold_max x).mpr (Or.inr ⟨x, h, le_rfl⟩)
    omega

theorem nodup_finset_listing (s : Finset Nat) : (finset_listing s).Nodup :=
  (List.nodup_range _).filter _

/-- The ordering of line 353, `sorted(piece_rarity.keys(), key=lambda p:
(piece_rarity[p], p))`: the key is injective (ties broken by the index
itself), so the relation `rarity_le` is total and antisymmetric and
Python's sort yields the *unique* (rarity, index)-sorted listing of the
available set; `insertionSort` over any duplicate-free listing of the set
produces exactly that. -/
def sorted_pieces (st : EngineState) (ps : Peer_State) : List Nat :=
  List.insertionSort (rarity_le (rarity_all st))
    (finset_listing (available_pieces st ps))

/-- The REQUEST frames for every block of piece `p` (lines 364-375):
block `bi` at offset `bi*B` with length `min(B, piece_size - bi*B)`. -/
def block_requests (m : Torrent_Metadata) (p : Nat) : List Out_Msg :=
  (List.range (num_blocks m p).toNat).map (fun bi =>
    Out_Msg.request p (bi * BLOCK_SIZE)
      (min (BLOCK_SIZE : Int) (piece_actual_size m p - (bi : Int) * BLOCK_SIZE)).toNat)

/-- One iteration of the request loop (lines 358-377): skip a piece
already marked requested, else mark it and emit its block REQUESTs. -/
def request_step (m : Torrent_Metadata) (acc : EngineState × List Out_Msg)
    (p : Nat) : EngineState × List Out_Msg :=
  if p ∈ acc.1.requested_pieces then acc
  else ({ acc.1 with requested_pieces := insert p acc.1.requested_pieces },
    acc.2 ++ block_requests m p)

/-- `request_pieces_from_peer` (lines 332-377): bail out on an unknown or
choking peer or an empty candidate set; otherwise take the first 5 pieces
in (rarity, index) order and issue their block REQUESTs. -/
def request_pieces_from_peer (m : Torrent_Metadata) (st : EngineState)
    (pid : String) : EngineState × List Out_Msg :=
  match alLookup pid st.peers with
  | none => (st, [])
  | some ps =>
    if ps.peer_choked then (st, [])
    else if available_pieces st ps = ∅ then (st, [])
    else ((sorted_pieces st ps).take 5).foldl (request_step m) (st, [])

/-- `process_message` (lines 265-321): dispatch one framed message from
peer `pid`.  Unknown peers and unparseable payloads are ignored; CANCEL
(id 8) and unknown ids do nothing.  No branch closes the session or
consults the request history. -/
def process_message (disk : String → Option Bytes) (S1 : Bytes → Bytes)
    (m : Torrent_Metadata) (st : EngineState) (pid : String) (msg_id : Nat)
    (payload : Bytes) : EngineState × List Out_Msg :=
  match alLookup pid st.peers with
  | none => (st, [])
  | some ps =>
    if msg_id = 0 then
      ({ st with peers := alInsert pid { ps with peer_choked := true } st.peers }, [])
    else if msg_id = 1 then
      let st1 := { st with peers := alInsert pid { ps with peer_choked := false } st.peers }
      if ps.interested then request_pieces_from_peer m st1 pid else (st1, [])
    else if msg_id = 2 then
      ({ st with peers := alInsert pid { ps with peer_interested := true } st.peers }, [])
    else if msg_id = 3 then
      ({ st with peers := alInsert pid { ps with peer_interested := false } st.peers }, [])
    else if msg_id = 4 then
      match parse_have_message payload with
      | some idx =>
        let ps1 := { ps with downloaded_pieces := insert idx ps.downloaded_pieces }
        ({ st with peers := alInsert pid ps1 st.peers }, [])
      | none => (st, [])
    else if msg_id = 5 then
      let pieces := parse_bitfield_message m.Piece_Hashes.length payload
      let st1 := { st with peers := alInsert pid { ps with downloaded_pieces := pieces } st.peers }
      if (pieces \ st1.have_pieces).Nonempty then send_interested st1 pid else (st1, [])
    else if msg_id = 6 then
      match parse_request_message payload with
      | some (i, off, len) => send_piece_block disk m st i off len
      | none => (st, [])
    else if msg_id = 7 then
      match parse_piece_message payload with
      | some (i, off, data) => handle_received_block S1 m st i off data
      | none => (st, [])
    else (st, [])

/-- `get_download_progress` (lines 858-862), with Python's float division
modelled in `ℚ` (the claimed range property is exact arithmetic). -/
def get_download_progress (m : Torrent_Metadata) (st : EngineState) : ℚ :=
  if m.Piece_Hashes.length = 0 then 100
  else (st.have_pieces.card : ℚ) / (m.Piece_Hashes.length : ℚ) * 100

/-- `is_complete` (lines 864-866). -/
def is_complete (m : Torrent_Metadata) (st : EngineState) : Bool :=
  st.have_pieces.card == m.Piece_Hashes.length

/-! ## Shared concrete fixtures (stand-ins for the external hash primitives
in closed evaluations; only their digest widths matter there) -/

/-- A stand-in for `hashlib.sha256(...).hexdigest()`: some fixed 64-char
hex string. -/
def hex64_stub : Bytes → String := fun _ => String.mk (List.replicate 64 'a')

/-- A stand-in for `hashlib.sha1(...).digest()`: some fixed 20-byte
digest. -/
def sha1_stub : Bytes → Bytes := fun _ => List.replicate 20 0

/-- A disk with no files. -/
def no_disk : String → Option Bytes := fun _ => none

theorem length_bytes_fromhex (s : String) :
    (bytes_fromhex s).length = s.data.length / 2 :=
  bytes_fromhex_aux_length s.data

/-- `handle_received_block` counts the block's bytes as downloaded on
every control path. -/
theorem handle_received_block_downloaded (S1 : Bytes → Bytes)
    (m : Torrent_Metadata) (st : EngineState) (i off : Nat) (data : Bytes) :
    (handle_received_block S1 m st i off data).1.downloaded_bytes
      = st.downloaded_bytes + data.length := by
  unfold handle_received_block
  dsimp only
  split
  · split <;> rfl
  · rfl

/-! ## Claim C1 -/

/-- C1: the claim reads "piece verification succeeds … because the
verifier uses the same hash function as the descriptor creator
(SHA-256)".  The code contradicts it: `Piece_Manager.Calculate_Pieces`
stores SHA-256 hex digests (32 bytes once decoded) while
`_verify_piece_hash` hashes the assembled buffer with `hashlib.sha1`
(20-byte digest), so for every descriptor whose piece hashes were produced
by the creator, verification returns `False` for every piece and every
buffer — matching payload or not.  The two hash primitives are parameters
constrained only by their digest widths. -/
theorem C1_verify_piece_hash_never_succeeds
    (H256 : Bytes → String) (S1 : Bytes → Bytes)
    (h256 : ∀ b, (H256 b).data.length = 64)
    (h1 : ∀ b, (S1 b).length = 20)
    (m : Torrent_Metadata) (payload : Bytes)
    (hmc : m.Piece_Hashes = calculate_pieces H256 m.Piece_Size payload)
    (st : EngineState) (i : Nat) (hi : i < m.Piece_Hashes.length) :
    verify_piece_hash S1 m st i = false := by
  unfold verify_piece_hash
  cases halk : alLookup i st.piece_buffers with
  | none => rfl
  | some buf =>
    simp only
    have hmem : m.Piece_Hashes.getD i "" ∈ m.Piece_Hashes := by
      rw [List.getD_eq_getElem m.Piece_Hashes "" hi]
      exact List.getElem_mem hi
    obtain ⟨b, hb⟩ := mem_calculate_pieces (hmc ▸ hmem)
    rw [beq_eq_false_iff_ne]
    intro heq
    have hlen := congrArg List.length heq
    rw [h1, hmc, hb, length_bytes_fromhex, h256] at hlen
    exact absurd hlen (by norm_num)

def C1_file : File_Info := { Path := "f.bin", Length := 4, Hash := none }

/-- A descriptor whose piece hashes come from the creator
(`Calculate_Pieces` with piece size 4 over the payload `"ABCD"`). -/
def C1_meta : Torrent_Metadata :=
  { Name := "f.bin", Files := [C1_file], Piece_Size := 4,
    Piece_Hashes := calculate_pieces hex64_stub 4 [65, 66, 67, 68],
    Tracker_URLs := [], Comment := none, Created_By := "c", Private := false,
    Creation_Date := 0, Info_Hash := "" }

/-- An engine whose in-flight buffer for piece 0 holds exactly the payload
bytes that were hashed at descriptor-creation time. -/
def C1_state : EngineState :=
  { have_pieces := ∅, requested_pieces := {0},
    piece_buffers := [(0, [(0, [65, 66, 67, 68])])],
    downloaded_bytes := 4, uploaded_bytes := 0, peers := [], active_peers := [] }

/-- Witness for C1 at the failing input: the buffer for piece 0 is a
complete, byte-for-byte match of the created payload, yet verification
fails. -/
theorem C1_verify_piece_hash_never_succeeds_witness :
    is_piece_complete C1_meta C1_state 0 = true ∧
      verify_piece_hash sha1_stub C1_meta C1_state 0 = false :=
  ⟨by decide,
    C1_verify_piece_hash_never_succeeds hex64_stub sha1_stub
      (fun _ => by simp [hex64_stub])
      (fun _ => by simp [sha1_stub])
      C1_meta [65, 66, 67, 68] rfl C1_state 0 (by decide)⟩

/-! ## Claim C2 -/

theorem file_from_to_dict (f : File_Info) : file_from_dict (file_to_dict f) = f := rfl

/-- C2: `load(save(D)) == D` for a valid descriptor D — one constructed by
`Torrent_Metadata.__init__`, so its `Created_By` is non-empty (the
truthiness coercion guarantees it) and its `Info_Hash` is the info hash of
its own fields.  `From_Dict` recomputes the info hash and restores every
other field, including `Creation_Date`, from the saved dictionary. -/
theorem C2_load_save_roundtrip (H256 : Bytes → String) (now : Nat)
    (D : Torrent_Metadata) (hcb : D.Created_By ≠ "")
    (hih : D.Info_Hash
      = calc_info_hash H256 D.Name D.Piece_Size D.Piece_Hashes D.Files) :
    Load_Torrent H256 now (Save_Torrent D) = some D := by
  have h1 : Load_Torrent H256 now (Save_Torrent D)
      = some (from_dict H256 now (to_dict D)) := rfl
  rw [h1, Option.some.injEq]
  obtain ⟨nm, fs, psz, phs, tr, cm, cb, pv, cd, ih⟩ := D
  dsimp only at hcb hih
  subst hih
  have hfs : List.map (file_from_dict ∘ file_to_dict) fs = fs := List.map_id fs
  simp only [from_dict, to_dict, mk_metadata, created_by_or_default,
    Option.getD_some, List.map_map, hfs, if_neg hcb,
    Torrent_Metadata.mk.injEq, true_and, and_true]
  cases tr <;> simp

def C2_file : File_Info := { Path := "f", Length := 8, Hash := some "hh" }

/-- A valid descriptor: `Created_By` non-empty, `Info_Hash` computed from
its own fields. -/
def C2_D : Torrent_Metadata :=
  { Name := "n", Files := [C2_file], Piece_Size := 4, Piece_Hashes := ["p0", "p1"],
    Tracker_URLs := ["http://t"], Comment := some "c", Created_By := "me",
    Private := true, Creation_Date := 7,
    Info_Hash := calc_info_hash hex64_stub "n" 4 ["p0", "p1"] [C2_file] }

/-- Witness for C2: the round trip at a concrete valid descriptor. -/
theorem C2_load_save_roundtrip_witness :
    Load_Torrent hex64_stub 99 (Save_Torrent C2_D) = some C2_D :=
  C2_load_save_roundtrip hex64_stub 99 C2_D (by decide) rfl

/-! ## Claim C4 -/

/-- A parsed body that is *not* well-formed: one file of 5 bytes with
piece length 16384 demands `⌈5/16384⌉ = 1` piece hash, but the body
carries none. -/
def C4_bad_dict : MetaDict :=
  { Name := "t", Files := [{ Path := "f", Length := 5, Hash := none }],
    Piece_Size := 16384, Piece_Hashes := [], Tracker_URLs := [], Comment := none,
    Created_By := some "c", Private := false, Creation_Date := some 0,
    Info_Hash := "", DST_Version := "1.0" }

/-- A `.dst` container with a correct magic around the malformed body. -/
def C4_bad_dst : DST_File :=
  { DST_Magic := "DST_TORRENT_V1",
    Container := { Encrypted := false, Data := C4_bad_dict, Signature := none } }

/-- C4 counterexample: the body's piece count (0) differs from
`⌈Σℓᵢ / L⌉ = 1`, yet `Load_Torrent` succeeds — no `DescriptorFormatError`
or any other failure occurs (the code has no such validation, nor such an
exception class). -/
theorem C4_load_accepts_malformed_body :
    ((C4_bad_dst.Container.Data.Files.map FileDict.Length).sum
        + C4_bad_dst.Container.Data.Piece_Size - 1)
        / C4_bad_dst.Container.Data.Piece_Size = 1 ∧
    C4_bad_dst.Container.Data.Piece_Hashes.length = 0 ∧
    (Load_Torrent hex64_stub 0 C4_bad_dst).isSome = true :=
  ⟨by decide, rfl, rfl⟩

/-- C4 amended: loading validates only the container framing — it fails
exactly when the magic is wrong or the container is encrypted while no
decryption handler is configured; the piece count, the piece-length
bounds and the digest widths of the body are never checked. -/
theorem C4_load_fails_iff_bad_magic_or_encrypted (H256 : Bytes → String)
    (now : Nat) (f : DST_File) :
    Load_Torrent H256 now f = none ↔
      f.DST_Magic ≠ "DST_TORRENT_V1" ∨ f.Container.Encrypted = true := by
  unfold Load_Torrent
  by_cases h1 : f.DST_Magic = "DST_TORRENT_V1" <;>
    by_cases h2 : f.Container.Encrypted <;> simp [h1, h2]

/-! ## Claim C5 -/

/-- The spec's own two-file scenario: `a.bin = "AB"`, `b.bin = "CDEF"`,
piece length 4, so block (piece 0, offset 0, length 4) spans both files. -/
def C5_meta : Torrent_Metadata :=
  { Name := "t",
    Files := [{ Path := "a.bin", Length := 2, Hash := none },
              { Path := "b.bin", Length := 4, Hash := none }],
    Piece_Size := 4, Piece_Hashes := ["h0", "h1"], Tracker_URLs := [],
    Comment := none, Created_By := "c", Private := false, Creation_Date := 0,
    Info_Hash := "" }

/-- Both payload files present on disk with their full contents. -/
def C5_disk : String → Option Bytes := fun p =>
  if p = "a.bin" then some [65, 66]
  else if p = "b.bin" then some [67, 68, 69, 70] else none

/-- A seeder that holds piece 0. -/
def C5_state : EngineState :=
  { have_pieces := {0}, requested_pieces := ∅, piece_buffers := [],
    downloaded_bytes := 0, uploaded_bytes := 0, peers := [], active_peers := [] }

/-- C5: the claim says a block read whose range overlaps two files returns
exactly `len` bytes — the concatenation of the per-file reads.  The code
returns from inside the file loop at the *first* overlapping file, so for
the in-range request (piece 0, offset 0, length 4) over `"AB"` ++ `"CDEF"`
it yields only `"AB"` (2 bytes instead of `"ABCD"`), and `send_piece_block`
then drops the request entirely (length check fails, no PIECE is sent). -/
theorem C5_read_block_returns_first_file_only :
    read_block_from_files C5_disk C5_meta 0 0 4 = some [65, 66] ∧
    (send_piece_block C5_disk C5_meta C5_state 0 0 4).1 = C5_state ∧
    (send_piece_block C5_disk C5_meta C5_state 0 0 4).2 = [] := by
  refine ⟨by decide, by decide, by decide⟩

/-! ## Claim C3 -/

/-- Two 16-KiB pieces over one 32-KiB file. -/
def C3_meta : Torrent_Metadata :=
  { Name := "t", Files := [{ Path := "f", Length := 32768, Hash := none }],
    Piece_Size := 16384, Piece_Hashes := ["a", "b"], Tracker_URLs := [],
    Comment := none, Created_By := "c", Private := false, Creation_Date := 0,
    Info_Hash := "" }

/-- An engine that already holds piece 0 (its buffer was freed when the
piece committed). -/
def C3_state : EngineState :=
  { have_pieces := {0}, requested_pieces := ∅, piece_buffers := [],
    downloaded_bytes := 0, uploaded_bytes := 0, peers := [], active_peers := [] }

/-- C3 counterexample: depositing a block for a piece already in `Have`
does *not* leave the engine unchanged — `handle_received_block` never
consults `have_pieces`, so the block lands in a fresh in-flight buffer and
the downloaded-bytes counter grows. -/
theorem C3_deposit_on_have_changes_state :
    0 ∈ C3_state.have_pieces ∧
    (handle_received_block sha1_stub C3_meta C3_state 0 0 [65]).1 ≠ C3_state := by
  refine ⟨by decide, by decide⟩

/-- C3 amended: for a piece already in `Have` the deposit still mutates
the engine — the block is buffered and its bytes are counted as
downloaded — but the ownership set itself never changes (a re-commit
re-inserts the piece it already contains). -/
theorem C3_deposit_on_have_keeps_ownership (S1 : Bytes → Bytes)
    (m : Torrent_Metadata) (st : EngineState) (i off : Nat) (data : Bytes)
    (hhave : i ∈ st.have_pieces) :
    ((handle_received_block S1 m st i off data).1.have_pieces = st.have_pieces) ∧
    ((handle_received_block S1 m st i off data).1.downloaded_bytes
      = st.downloaded_bytes + data.length) := by
  refine ⟨?_, handle_received_block_downloaded S1 m st i off data⟩
  unfold handle_received_block
  dsimp only
  split
  · split
    · dsimp only
      exact Finset.insert_eq_self.mpr hhave
    · rfl
  · rfl

/-- Witness for the amended C3 at the concrete state holding piece 0. -/
theorem C3_deposit_on_have_keeps_ownership_witness :
    ((handle_received_block sha1_stub C3_meta C3_state 0 0 [65]).1.have_pieces
        = C3_state.have_pieces) ∧
    ((handle_received_block sha1_stub C3_meta C3_state 0 0 [65]).1.downloaded_bytes
        = C3_state.downloaded_bytes + 1) :=
  C3_deposit_on_have_keeps_ownership sha1_stub C3_meta C3_state 0 0 [65] (by decide)

/-! ## Claim C6 -/

/-- A post-handshake session: peer known, nothing requested yet. -/
def C6_peer : Peer_State :=
  { peer_id := "p", ip := "", port := 0, connected := true, choked := true,
    interested := false, peer_choked := true, peer_interested := false,
    downloaded_pieces := ∅, requested_pieces := ∅ }

def C6_meta : Torrent_Metadata := C3_meta

def C6_state : EngineState :=
  { have_pieces := ∅, requested_pieces := ∅, piece_buffers := [],
    downloaded_bytes := 0, uploaded_bytes := 0, peers := [("p", C6_peer)],
    active_peers := ["p"] }

/-- C6 counterexample: in a reachable session state where *no* REQUEST was
ever sent (the requested set is empty), an inbound PIECE frame for
(piece 0, offset 0, 1 byte) is still deposited into a piece buffer — piece
state changes instead of the frame being discarded. -/
theorem C6_unsolicited_piece_deposited :
    C6_state.requested_pieces = ∅ ∧
    (process_message no_disk sha1_stub C6_meta C6_state "p" 7
        [0, 0, 0, 0, 0, 0, 0, 0, 65]).1.piece_buffers ≠ C6_state.piece_buffers := by
  refine ⟨rfl, by decide⟩

/-- C6 amended: `process_message` dispatches a parseable PIECE frame from
a known peer straight into `handle_received_block`; no request history is
consulted, so the block's bytes are always absorbed, REQUEST or not. -/
theorem C6_piece_frame_deposited_unconditionally (disk : String → Option Bytes)
    (S1 : Bytes → Bytes) (m : Torrent_Metadata) (st : EngineState)
    (pid : String) (ps : Peer_State) (payload : Bytes) (i off : Nat) (data : Bytes)
    (hps : alLookup pid st.peers = some ps)
    (hparse : parse_piece_message payload = some (i, off, data)) :
    (process_message disk S1 m st pid 7 payload).1.downloaded_bytes
      = st.downloaded_bytes + data.length := by
  unfold process_message
  rw [hps]
  simp only [hparse]
  norm_num
  exact handle_received_block_downloaded S1 m st i off data

/-- Witness for the amended C6: the unsolicited one-byte block at the
concrete post-handshake state is absorbed. -/
theorem C6_piece_frame_deposited_unconditionally_witness :
    (process_message no_disk sha1_stub C6_meta C6_state "p" 7
        [0, 0, 0, 0, 0, 0, 0, 0, 65]).1.downloaded_bytes
      = C6_state.downloaded_bytes + 1 :=
  C6_piece_frame_deposited_unconditionally no_disk sha1_stub C6_meta C6_state
    "p" C6_peer [0, 0, 0, 0, 0, 0, 0, 0, 65] 0 0 [65] (by decide) (by decide)

/-! ## Claim C8 -/

/-- A one-piece torrent. -/
def C8_meta : Torrent_Metadata :=
  { C3_meta with Piece_Hashes := ["a"] }

def C8_peer : Peer_State :=
  { peer_id := "p", ip := "", port := 0, connected := true, choked := true,
    interested := false, peer_choked := true, peer_interested := false,
    downloaded_pieces := {0}, requested_pieces := ∅ }

def C8_state : EngineState :=
  { have_pieces := ∅, requested_pieces := ∅, piece_buffers := [],
    downloaded_bytes := 0, uploaded_bytes := 0, peers := [("p", C8_peer)],
    active_peers := ["p"] }

/-- The peer entry after the BITFIELD `0x40` is processed: the payload is
accepted with the out-of-range bit silently dropped (the piece set becomes
empty) and the session remains connected. -/
def C8_peer_after : Peer_State :=
  { peer_id := "p", ip := "", port := 0, connected := true, choked := true,
    interested := false, peer_choked := true, peer_interested := false,
    downloaded_pieces := ∅, requested_pieces := ∅ }

/-- C8 counterexample: for the 1-piece torrent, the BITFIELD payload
`[0x40]` has its set bit at position 1 ≥ n = 1 (exactly the bit test the
parser applies), yet the message is processed without any error: the peer
table is updated with the bit dropped, the session stays `connected`, and
nothing is sent — the opposite of "treated as a protocol error and the
session is closed". -/
theorem C8_oob_bitfield_accepted :
    C8_meta.Piece_Hashes.length = 1 ∧
    (([64] : Bytes).getD (1 / 8) 0 % 256).testBit (7 - 1 % 8) = true ∧
    (process_message no_disk sha1_stub C8_meta C8_state "p" 5 [64]).1.peers
      = [("p", C8_peer_after)] ∧
    (process_message no_disk sha1_stub C8_meta C8_state "p" 5 [64]).2 = [] := by
  refine ⟨rfl, by decide, by decide, by decide⟩

/-- C8 amended: `parse_bitfield_message` silently ignores every set bit at
a position ≥ the torrent's piece count — the parsed set only ever contains
in-range indices, and no error path exists. -/
theorem C8_parse_bitfield_in_range (total_pieces : Nat) (payload : Bytes) :
    parse_bitfield_message total_pieces payload ⊆ Finset.range total_pieces := by
  intro i hi
  unfold parse_bitfield_message at hi
  rw [List.mem_toFinset, List.mem_filter] at hi
  have := hi.2
  simp only [Bool.and_eq_true, decide_eq_true_eq] at this
  exact Finset.mem_range.mpr this.2

/-! ## Claim C10 -/

/-- C10: the progress percentage is always within [0, 100] — the
piece-count-zero case short-circuits to 100 before any division — and for
a zero-piece torrent the degenerate state (ownership necessarily empty) is
also reported complete.  The hypothesis is the engine's reachability
invariant: owned pieces are verified in-range pieces. -/
theorem C10_progress_bounds (m : Torrent_Metadata) (st : EngineState)
    (h : st.have_pieces ⊆ Finset.range m.Piece_Hashes.length) :
    0 ≤ get_download_progress m st ∧ get_download_progress m st ≤ 100 ∧
      (m.Piece_Hashes.length = 0 →
        get_download_progress m st = 100 ∧ is_complete m st = true) := by
  have hcard : st.have_pieces.card ≤ m.Piece_Hashes.length := by
    simpa using Finset.card_le_card h
  unfold get_download_progress is_complete
  by_cases h0 : m.Piece_Hashes.length = 0
  · have hempty : st.have_pieces = ∅ :=
      Finset.subset_empty.mp (by simpa [h0] using h)
    simp [h0, hempty]
  · have hpos : (0 : ℚ) < (m.Piece_Hashes.length : ℚ) := by
      exact_mod_cast Nat.pos_of_ne_zero h0
    refine ⟨by positivity, ?_, fun hc => absurd hc h0⟩
    rw [if_neg h0]
    have hdiv : (st.have_pieces.card : ℚ) / (m.Piece_Hashes.length : ℚ) ≤ 1 :=
      (div_le_one hpos).mpr (by exact_mod_cast hcard)
    calc (st.have_pieces.card : ℚ) / (m.Piece_Hashes.length : ℚ) * 100
        ≤ 1 * 100 := by
          exact mul_le_mul_of_nonneg_right hdiv (by norm_num)
      _ = 100 := by norm_num

/-- Witness for C10 at a concrete half-done engine. -/
theorem C10_progress_bounds_witness :
    0 ≤ get_download_progress C3_meta C3_state ∧
      get_download_progress C3_meta C3_state ≤ 100 ∧
      (C3_meta.Piece_Hashes.length = 0 →
        get_download_progress C3_meta C3_state = 100 ∧
          is_complete C3_meta C3_state = true) :=
  C10_progress_bounds C3_meta C3_state (by decide)

/-! ## Claim C7 -/

/-- Folding the request loop over any piece list can only add pieces of
that list to the requested set. -/
theorem request_fold_requested_subset (m : Torrent_Metadata) :
    ∀ (l : List Nat) (s0 : EngineState) (ms0 : List Out_Msg),
      (l.foldl (request_step m) (s0, ms0)).1.requested_pieces
        ⊆ s0.requested_pieces ∪ l.toFinset
  | [], s0, ms0 => by simp
  | p :: t, s0, ms0 => by
      simp only [List.foldl_cons, request_step, List.toFinset_cons]
      by_cases hp : p ∈ s0.requested_pieces
      · rw [if_pos hp]
        exact (request_fold_requested_subset m t s0 ms0).trans
          (Finset.union_subset_union (Finset.Subset.refl _)
            (Finset.subset_insert p t.toFinset))
      · rw [if_neg hp]
        refine (request_fold_requested_subset m t _ _).trans ?_
        dsimp only
        rw [Finset.insert_union, Finset.union_insert]

/-- C7 amended: there is no per-peer bound on outstanding *block* requests
at all — the only cap in `request_pieces_from_peer` is that one invocation
marks at most 5 new *pieces* as requested (in a single global set, not per
peer), while it transmits one REQUEST per 16-KiB block of each selected
piece, unbounded by any constant. -/
theorem C7_at_most_five_new_pieces_per_call (m : Torrent_Metadata)
    (st : EngineState) (pid : String) :
    ((request_pieces_from_peer m st pid).1.requested_pieces
      \ st.requested_pieces).card ≤ 5 := by
  unfold request_pieces_from_peer
  cases halk : alLookup pid st.peers with
  | none => simp
  | some ps =>
    dsimp only
    split
    · simp
    · split
      · simp
      · have hsub := request_fold_requested_subset m
          ((sorted_pieces st ps).take 5) st []
        have h2 : (((sorted_pieces st ps).take 5).foldl (request_step m)
              (st, [])).1.requested_pieces \ st.requested_pieces
            ⊆ ((sorted_pieces st ps).take 5).toFinset := by
          intro x hx
          rcases Finset.mem_sdiff.mp hx with ⟨hx1, hx2⟩
          rcases Finset.mem_union.mp (hsub hx1) with h | h
          · exact absurd h hx2
          · exact h
        refine le_trans (Finset.card_le_card h2)
          (le_trans (List.toFinset_card_le _) ?_)
        rw [List.length_take]
        exact min_le_left _ _

/-- An unchoked peer we are interested in, holding the single piece. -/
def C7_peer : Peer_State :=
  { peer_id := "p", ip := "", port := 0, connected := true, choked := true,
    interested := true, peer_choked := false, peer_interested := false,
    downloaded_pieces := {0}, requested_pieces := ∅ }

/-- One 180224-byte (11-block) piece. -/
def C7_meta : Torrent_Metadata :=
  { Name := "t", Files := [{ Path := "f", Length := 180224, Hash := none }],
    Piece_Size := 180224, Piece_Hashes := ["x"], Tracker_URLs := [],
    Comment := none, Created_By := "c", Private := false, Creation_Date := 0,
    Info_Hash := "" }

def C7_state : EngineState :=
  { have_pieces := ∅, requested_pieces := ∅, piece_buffers := [],
    downloaded_bytes := 0, uploaded_bytes := 0, peers := [("p", C7_peer)],
    active_peers := ["p"] }

/-- C7 counterexample: one scheduling call for a single 180224-byte piece
sends 11 block REQUESTs to the peer — none yet answered, so 11 requests
are outstanding, exceeding every constant K ≤ 10.  (Nothing per-peer is
tracked at all: the engine records only the global requested-piece set.) -/
theorem C7_eleven_requests_in_one_call :
    (request_pieces_from_peer C7_meta C7_state "p").2.length = 11 ∧
    10 < (request_pieces_from_peer C7_meta C7_state "p").2.length :=
  ⟨by decide, by decide⟩

/-! ## Claim C9 -/

/-- Folding the request loop over a duplicate-free piece list disjoint
from the requested set marks exactly those pieces and emits exactly their
block REQUESTs, in list order. -/
theorem request_fold_eq (m : Torrent_Metadata) :
    ∀ (l : List Nat) (s0 : EngineState) (ms0 : List Out_Msg),
      l.Nodup → (∀ p ∈ l, p ∉ s0.requested_pieces) →
      l.foldl (request_step m) (s0, ms0)
        = ({ s0 with requested_pieces := s0.requested_pieces ∪ l.toFinset },
           ms0 ++ (l.map (block_requests m)).flatten)
  | [], s0, ms0, _, _ => by simp
  | p :: t, s0, ms0, hnd, hdisj => by
      have hp : p ∉ s0.requested_pieces := hdisj p (List.mem_cons_self p t)
      have hpt : p ∉ t := (List.nodup_cons.mp hnd).1
      simp only [List.foldl_cons, request_step]
      rw [if_neg hp]
      rw [request_fold_eq m t _ _ (List.nodup_cons.mp hnd).2 ?_]
      · dsimp only
        rw [Prod.mk.injEq]
        constructor
        · rw [EngineState.mk.injEq]
          refine ⟨rfl, ?_, rfl, rfl, rfl, rfl, rfl⟩
          rw [Finset.insert_union, List.toFinset_cons, Finset.union_insert]
        · rw [List.map_cons, List.flatten_cons, List.append_assoc]
      · intro q hq hmem
        rcases Finset.mem_insert.mp hmem with h | h
        · exact hpt (h ▸ hq)
        · exact hdisj q (List.mem_cons_of_mem p hq) h

/-- The extracted piece indices of a message list's REQUEST frames. -/
def req_indices (msgs : List Out_Msg) : List Nat :=
  msgs.filterMap (fun msg => match msg with
    | .request i _ _ => some i
    | _ => none)

/-- Modelled from the spec: the rarity the claim describes — the number of
*currently connected* peers whose bitfield contains the piece. -/
def rarity_connected (st : EngineState) (p : Nat) : Nat :=
  (st.peers.filter
    (fun kv => kv.2.connected && decide (p ∈ kv.2.downloaded_pieces))).length

/-- Modelled from the spec: the selection the claim describes — the
candidate pieces in ascending connected-peer rarity with the piece index
as tie-break, of which the first elements (up to the request cap) are
requested. -/
def claimed_selection (st : EngineState) (ps : Peer_State) : List Nat :=
  (List.insertionSort (rarity_le (rarity_connected st))
    (finset_listing (available_pieces st ps))).take 5

/-- A connected unchoked seeder advertising pieces 0-5. -/
def C9_psA : Peer_State :=
  { peer_id := "a", ip := "", port := 0, connected := true, choked := true,
    interested := true, peer_choked := false, peer_interested := false,
    downloaded_pieces := Finset.range 6, requested_pieces := ∅ }

/-- A peer whose connection has died (`connected = false`) but whose entry
remains in the peer table, still advertising piece 0. -/
def C9_psB : Peer_State :=
  { peer_id := "b", ip := "", port := 0, connected := false, choked := true,
    interested := false, peer_choked := true, peer_interested := false,
    downloaded_pieces := Finset.range 1, requested_pieces := ∅ }

/-- Six 16-KiB pieces over one 96-KiB file. -/
def C9_meta : Torrent_Metadata :=
  { Name := "t", Files := [{ Path := "f", Length := 98304, Hash := none }],
    Piece_Size := 16384, Piece_Hashes := ["a", "b", "c", "d", "e", "f"],
    Tracker_URLs := [], Comment := none, Created_By := "c", Private := false,
    Creation_Date := 0, Info_Hash := "" }

def C9_state : EngineState :=
  { have_pieces := ∅, requested_pieces := ∅, piece_buffers := [],
    downloaded_bytes := 0, uploaded_bytes := 0,
    peers := [("a", C9_psA), ("b", C9_psB)], active_peers := ["a"] }

/-- C9 counterexample: the connected-peer rarity of the claim ranks all
six candidates equally (only peer "a" is still connected), so the claim's
selection is the first five by index, [0, 1, 2, 3, 4] — but the code also
counts the dead table entry "b", making piece 0 the *least* rare, and
requests [1, 2, 3, 4, 5] instead. -/
theorem C9_rarity_counts_disconnected_peer :
    req_indices (request_pieces_from_peer C9_meta C9_state "a").2
      = [1, 2, 3, 4, 5] ∧
    claimed_selection C9_state C9_psA = [0, 1, 2, 3, 4] :=
  ⟨by decide, by decide⟩

/-- C9 amended: the scheduler does order candidates by ascending rarity
with the piece index as tie-break and requests the first 5 of that order —
but its rarity counts *every entry of the peer table*, including peers
whose connection has closed (entries are never removed), not only the
currently connected ones. -/
theorem C9_selection_by_table_rarity (m : Torrent_Metadata) (st : EngineState)
    (pid : String) (ps : Peer_State)
    (hps : alLookup pid st.peers = some ps)
    (hchoke : ps.peer_choked = false)
    (hne : available_pieces st ps ≠ ∅) :
    (request_pieces_from_peer m st pid).1.requested_pieces
        = st.requested_pieces ∪ ((sorted_pieces st ps).take 5).toFinset
    ∧ (request_pieces_from_peer m st pid).2
        = (((sorted_pieces st ps).take 5).map (block_requests m)).flatten
    ∧ List.Sorted (rarity_le (rarity_all st)) (sorted_pieces st ps)
    ∧ (∀ p ∈ available_pieces st ps, p ∉ (sorted_pieces st ps).take 5 →
        ∀ q ∈ (sorted_pieces st ps).take 5, rarity_le (rarity_all st) q p) := by
  have hmem : ∀ x, x ∈ sorted_pieces st ps ↔ x ∈ available_pieces st ps := by
    intro x
    unfold sorted_pieces
    rw [List.mem_insertionSort]
    exact mem_finset_listing _ x
  have hnd : (sorted_pieces st ps).Nodup :=
    ((List.perm_insertionSort _ _).nodup_iff).mpr (nodup_finset_listing _)
  have hndt : ((sorted_pieces st ps).take 5).Nodup :=
    hnd.sublist (List.take_sublist 5 _)
  have hdisj : ∀ p ∈ (sorted_pieces st ps).take 5, p ∉ st.requested_pieces := by
    intro p hp
    have hpav : p ∈ available_pieces st ps :=
      (hmem p).mp (List.mem_of_mem_take hp)
    exact fun hreq => (Finset.mem_sdiff.mp hpav).2 hreq
  have hfold := request_fold_eq m ((sorted_pieces st ps).take 5) st [] hndt hdisj
  have hreq : request_pieces_from_peer m st pid
      = ((sorted_pieces st ps).take 5).foldl (request_step m) (st, []) := by
    unfold request_pieces_from_peer
    rw [hps]
    dsimp only
    rw [if_neg (by simp [hchoke]), if_neg hne]
  refine ⟨?_, ?_, ?_, ?_⟩
  · rw [hreq, hfold]
  · rw [hreq, hfold]
    simp
  · exact List.sorted_insertionSort _ _
  · intro p hpav hpnot q hq
    have hsorted : List.Sorted (rarity_le (rarity_all st)) (sorted_pieces st ps) :=
      List.sorted_insertionSort _ _
    have hpl : p ∈ sorted_pieces st ps := (hmem p).mpr hpav
    have hsplit : sorted_pieces st ps
        = (sorted_pieces st ps).take 5 ++ (sorted_pieces st ps).drop 5 :=
      (List.take_append_drop 5 _).symm
    have hpdrop : p ∈ (sorted_pieces st ps).drop 5 := by
      rcases List.mem_append.mp (hsplit ▸ hpl) with h | h
      · exact absurd h hpnot
      · exact h
    have hpw := List.pairwise_append.mp (hsplit ▸ hsorted)
    exact hpw.2.2 q hq p hpdrop

/-- Witness for the amended C9 at the two-peer state: the requested set
gains exactly the first five pieces of the table-rarity order. -/
theorem C9_selection_by_table_rarity_witness :
    (request_pieces_from_peer C9_meta C9_state "a").1.requested_pieces
      = C9_state.requested_pieces
        ∪ ((sorted_pieces C9_state C9_psA).take 5).toFinset :=
  (C9_selection_by_table_rarity C9_meta C9_state "a" C9_psA (by decide)
    (by decide) (by decide)).1
